import Mathlib

/-!
Verification of the CritiqueWire backend ingestion-and-extraction core.

This file gives a shallow embedding of the RSS collection service
(`app/services/rss_collection_service.py`), the content extraction service
(`app/services/content_extraction_service.py`) and the daily cleanup job of the
scheduler service (`app/services/scheduler_service.py`), and proves or refutes
the specification's claims about them.

Modelling conventions:
* Python strings are Lean `String`s; `len` is `String.length` (both count
  unicode codepoints).
* Whitespace is `Char.isWhitespace` (space, tab, newline, carriage return);
  Python's `\s` and `str.strip()` cover a slightly larger exotic set, which no
  claim depends on.
* Timestamps are integers (seconds); the database compares ISO-8601 strings of
  a uniform format, for which lexicographic order agrees with chronological
  order, so an integer timeline is a faithful model.
* External libraries (the `langdetect` detector, `hashlib.md5`, the three
  third-party extraction libraries, HTML parsing by BeautifulSoup, network
  fetches) are modelled as explicit functional parameters or as pre-parsed
  inputs; everything implemented in the repository itself is translated.
* Database tables are lists of rows; Supabase insert/update/delete/select
  calls are translated to the corresponding pure list operations.
-/

namespace CritiqueWire

/-! ## Character-list string utilities

These model the string manipulation used by
`RSSCollectionService._clean_text`:
`re.sub(r'<[^>]+>', '', text)` followed by `re.sub(r'\s+', ' ', text).strip()`,
and Python's `str.strip()`.
-/

/-- Whitespace test used throughout (Python `\s` / `str.strip`). -/
def isWsChar (c : Char) : Bool := c.isWhitespace

/-- Split a character list at the first `'>'`: returns the (possibly empty)
segment before it and the remainder after it, or `none` when no `'>'` occurs.
Used to model the regex `<[^>]+>`. -/
def findTagEnd : List Char → Option (List Char × List Char)
  | [] => none
  | c :: rest =>
    if c = '>' then some ([], rest)
    else
      match findTagEnd rest with
      | some (pre, post) => some (c :: pre, post)
      | none => none

/-- Fuelled worker for `removeTags`.  At a `'<'` it looks for the next `'>'`;
the regex `<[^>]+>` matches only when at least one character stands between
them, so `"<>"` and an unclosed `'<'` are kept verbatim, exactly as
`re.sub(r'<[^>]+>', '', text)` behaves. -/
def removeTagsAux : Nat → List Char → List Char
  | 0, l => l
  | _ + 1, [] => []
  | fuel + 1, c :: rest =>
    if c = '<' then
      match findTagEnd rest with
      | some (between, post) =>
        if between.isEmpty then c :: removeTagsAux fuel rest
        else removeTagsAux fuel post
      | none => c :: removeTagsAux fuel rest
    else c :: removeTagsAux fuel rest

/-- Delete every `<[^>]+>` tag from a character list. -/
def removeTags (l : List Char) : List Char := removeTagsAux l.length l

/-- Replace every whitespace character by `' '` (first half of
`re.sub(r'\s+', ' ', text)`). -/
def wsToSpace (l : List Char) : List Char :=
  l.map (fun c => if isWsChar c then ' ' else c)

/-- Collapse adjacent spaces to a single space (second half of
`re.sub(r'\s+', ' ', text)` after `wsToSpace`). -/
def squeezeSpaces : List Char → List Char
  | [] => []
  | [c] => [c]
  | a :: b :: rest =>
    if a = ' ' && b = ' ' then squeezeSpaces (b :: rest)
    else a :: squeezeSpaces (b :: rest)

/-- Python `str.strip()` on a character list: drop leading and trailing
whitespace. -/
def trimWs (l : List Char) : List Char :=
  ((l.dropWhile isWsChar).reverse.dropWhile isWsChar).reverse

/-- Python `str.strip()`. -/
def pyStrip (s : String) : String := String.mk (trimWs s.data)

/-- `s.startswith(p)`, computed on the character lists. -/
def strStartsWith (s p : String) : Bool := p.data.isPrefixOf s.data

/-- `s.endswith(p)`, computed on the character lists. -/
def strEndsWith (s p : String) : Bool := p.data.isSuffixOf s.data

/-- `s.lower()`, character-wise (the tags and MIME types it is applied to are
ASCII). -/
def strToLower (s : String) : String := String.mk (s.data.map Char.toLower)

/-- `RSSCollectionService._clean_text`: remove HTML tags, collapse whitespace
runs to single spaces, strip the ends.  (The guard `if not text: return ""` is
subsumed: all stages map `""` to `""`.) -/
def clean_text (s : String) : String :=
  String.mk (trimWs (squeezeSpaces (wsToSpace (removeTags s.data))))

/-! ## Reading time (`ContentExtractionService._calculate_reading_time`)

Source: `return max(1, round(word_count / 225))`.  Python's `round` on a float
is round-half-to-even; since `225` is odd, `word_count / 225` is never exactly
half-integral, so no tie is ever broken and Mathlib's half-up `round` on `ℚ`
is an exact model. -/

def calculate_reading_time (word_count : Nat) : Nat :=
  max 1 (round ((word_count : ℚ) / 225)).toNat

/-- Worker for `pyWordCount`: count maximal non-whitespace runs; the flag
records whether the scan is inside a word. -/
def countTokensAux : Bool → List Char → Nat
  | _, [] => 0
  | inWord, c :: rest =>
    if isWsChar c then countTokensAux false rest
    else (if inWord then 0 else 1) + countTokensAux true rest

/-- Python `str.split()` with no argument splits on whitespace runs and drops
empty tokens, so its length is the number of maximal non-whitespace runs.
Used for `word_count = len(content.split())`. -/
def pyWordCount (s : String) : Nat := countTokensAux false s.data

/-! ## Feed data model

A parsed feed entry as `feedparser` presents it to
`RSSCollectionService`.  Fields the code reads through `hasattr` /
`.get(..., default)` are `Option`s (with `[]` doubling for an absent list
attribute, which the code treats identically to an empty one).  The `<img>`
tags of the HTML description are pre-parsed into their optional `src`
attributes, since HTML parsing is done by the external BeautifulSoup
library. -/

/-- One element of `entry.media_content`: `media.get('type', '')` and the
optional `'url'` key. -/
structure MediaItem where
  url : Option String
  type : String
deriving DecidableEq, Repr

/-- One element of `entry.enclosures`: `.get('type', '')`, `.get('href', '')`. -/
structure Enclosure where
  type : String
  href : Option String
deriving DecidableEq, Repr

/-- A parsed RSS/Atom entry.  `media_thumbnail` holds each thumbnail's
optional `'url'` key; `description_imgs = some l` means the entry has a
description whose `<img>` tags carry the optional `src` attributes in `l`. -/
structure RssEntry where
  title : Option String
  link : Option String
  summary : Option String
  author : Option String
  published : Option String
  language : Option String
  media_thumbnail : List (Option String)
  media_content : List MediaItem
  enclosures : List Enclosure
  description_imgs : Option (List (Option String))
deriving DecidableEq, Repr

/-- Feed-level metadata: `feed.feed.language` and `feed.feed.lang`. -/
structure FeedMeta where
  language : Option String
  lang : Option String
deriving DecidableEq, Repr

/-! ## Language classifier (`rss_collection_service.py`) -/

/-- The fixed `language_mapping` table; `mapping.get(detected, 'unknown')`. -/
def language_mapping (code : String) : String :=
  if code = "ar" then "ar"
  else if code = "fr" then "fr"
  else if code = "en" then "en"
  else if code = "it" then "fr"
  else if code = "es" then "fr"
  else "unknown"

/-- The three-way prefix test applied to one language tag: lowercase, then
test the prefixes `ar` / `fr` / `en`.  The source's truthiness guard
(`and entry.language`) is subsumed: the empty string has none of the
prefixes. -/
def normLangTag : Option String → Option String
  | none => none
  | some s =>
    let l := strToLower s
    if strStartsWith l "ar" then some "ar"
    else if strStartsWith l "fr" then some "fr"
    else if strStartsWith l "en" then some "en"
    else none

/-- `RSSCollectionService._extract_language_from_rss_metadata`: entry-level
tag, then feed-level `language`, then feed-level `lang`. -/
def extract_language_from_rss_metadata (fm : FeedMeta) (e : RssEntry) :
    Option String :=
  match normLangTag e.language with
  | some l => some l
  | none =>
    match normLangTag fm.language with
    | some l => some l
    | none => normLangTag fm.lang

/-- `RSSCollectionService._detect_language_from_content`.  The statistical
detector (`langdetect.detect`) is external and passed in as `detect`; `none`
models a `LangDetectException`. -/
def detect_language_from_content (detect : String → Option String)
    (text : String) : String :=
  if (pyStrip text).length < 20 then "unknown"
  else
    let ct := clean_text text
    if ct.length < 20 then "unknown"
    else
      match detect ct with
      | none => "unknown"
      | some code => language_mapping code

/-- `RSSCollectionService._determine_article_language`. -/
def determine_article_language (detect : String → Option String)
    (fm : FeedMeta) (e : RssEntry) (title summary : String) : String :=
  match extract_language_from_rss_metadata fm e with
  | some l => l
  | none =>
    let contentForDetection := pyStrip (title ++ " " ++ summary)
    if 20 ≤ contentForDetection.length then
      let d := detect_language_from_content detect contentForDetection
      if d ≠ "unknown" then d else "unknown"
    else "unknown"

/-! ## Image extraction (`_extract_main_image_from_rss_entry`) -/

/-- The image-like URL extensions checked for `media_content` entries. -/
def imageExtensions : List String :=
  [".jpg", ".jpeg", ".png", ".gif", ".webp", ".svg"]

/-- The `is_image` test of priority 2: image MIME type, or empty / `unknown`
type, or an image-like extension on the lowercased URL. -/
def isImageMediaContent (ty url : String) : Bool :=
  let t := strToLower ty
  strStartsWith t "image" || t = "" || t = "unknown" ||
    imageExtensions.any (fun ext => strEndsWith (strToLower url) ext)

/-- `RSSCollectionService._extract_main_image_from_rss_entry`: the four
priority tiers, first hit wins. -/
def extract_main_image_from_rss_entry (e : RssEntry) : Option String :=
  match e.media_thumbnail.findSome? id with
  | some u => some u
  | none =>
  match e.media_content.findSome? (fun m =>
      match m.url with
      | none => none
      | some u => if isImageMediaContent m.type u then some u else none) with
  | some u => some u
  | none =>
  match e.enclosures.findSome? (fun enc =>
      if strStartsWith enc.type "image" then some (enc.href.getD "") else none) with
  | some u => some u
  | none =>
  match e.description_imgs with
  | none => none
  | some imgs =>
    imgs.findSome? (fun src? =>
      match src? with
      | some src => if strStartsWith src "http" then some src else none
      | none => none)

/-! ## Content hash (`_generate_content_hash`)

`hashlib.md5` is external; it is passed in as an abstract digest function
`md5`.  The repository-side computation is the normalized input string. -/

def generate_content_hash (md5 : String → String) (title url : String) :
    String :=
  md5 (pyStrip (strToLower title) ++ pyStrip url)

/-! ## The article store

One row of the `articles` table, restricted to the columns this core reads or
writes.  `collected_at`, `created_at` and `content_extracted_at` are integer
timestamps (see the header note); `updated_at` is store-managed and omitted.
-/

structure ArticleRow where
  id : String
  title : String
  content : String
  url : String
  source_name : String
  author : Option String
  published_at : Option String
  summary : Option String
  source_url : Option String
  collected_at : Option Int
  content_hash : String
  image_url : Option String
  language : String
  analysis_status : String
  analysis_id : Option String
  created_at : Int
  word_count : Option Nat
  reading_time : Option Nat
  content_extracted_at : Option Int
deriving DecidableEq, Repr

/-- The `articles` table. -/
structure Store where
  rows : List ArticleRow
deriving DecidableEq, Repr

/-- The duplicate probe of `_store_articles`:
`select("id").or_("content_hash.eq.H,url.eq.U")` is non-empty. -/
def existsByHashOrUrl (s : Store) (h u : String) : Bool :=
  s.rows.any (fun r => r.content_hash = h || r.url = u)

/-! ## Candidate articles and feed parsing (`_fetch_rss_feed`) -/

/-- The per-entry dict assembled by `_fetch_rss_feed`.  `published_at` keeps
the raw feed date string: `_parse_date` delegates to external date parsers
and no claim depends on its value. -/
structure RawArticle where
  title : String
  url : String
  summary : String
  author : String
  published_at : Option String
  source_name : String
  source_url : String
  content_hash : String
  image_url : Option String
  language : String
  collected_at : Int
deriving DecidableEq, Repr

/-- A fetched and `feedparser`-parsed feed document. -/
structure FeedDoc where
  meta : FeedMeta
  entries : List RssEntry
deriving DecidableEq, Repr

/-- The entry loop of `_fetch_rss_feed`: clean title/summary/author, skip
entries without title or link, extract image, language and hash. -/
def parse_feed_entries (detect : String → Option String)
    (md5 : String → String) (now : Int) (source_name source_url : String)
    (doc : FeedDoc) : List RawArticle :=
  doc.entries.filterMap (fun entry =>
    let title := clean_text (entry.title.getD "")
    let link := entry.link.getD ""
    let summary := clean_text (entry.summary.getD "")
    if title = "" || link = "" then none
    else some
      { title := title
        url := link
        summary := summary
        author := clean_text (entry.author.getD "")
        published_at := entry.published
        source_name := source_name
        source_url := source_url
        content_hash := generate_content_hash md5 title link
        image_url := extract_main_image_from_rss_entry entry
        language := determine_article_language detect doc.meta entry title summary
        collected_at := now })

/-- `RSSCollectionService._fetch_rss_feed`, network abstracted: a non-200
status, transport error or timeout is the `Except.error` case; all of them
are caught inside the function, logged, and yield the empty article list. -/
def fetch_rss_feed (detect : String → Option String) (md5 : String → String)
    (now : Int) (source_name url : String)
    (fetched : Except String FeedDoc) : List RawArticle :=
  match fetched with
  | Except.error _ => []
  | Except.ok doc =>
    if doc.entries.isEmpty then []
    else parse_feed_entries detect md5 now source_name url doc

/-! ## Storing articles (`_store_articles`) -/

/-- The placeholder used when inserting a feed-origin article:
`f"{article['title']}\n\n(Click to read full article)"`. -/
def placeholderContent (title : String) : String :=
  title ++ "\n\n(Click to read full article)"

/-- The `article_data` insert dict of `_store_articles`.  The row id is
store-generated (a UUID); it is abstracted by a deterministic stand-in that
none of the modelled logic inspects.  `created_at` is the store-side insert
timestamp, which coincides with the article's collection time. -/
def mkInsertRow (a : RawArticle) : ArticleRow :=
  { id := a.content_hash ++ "#" ++ a.url
    title := a.title
    content := placeholderContent a.title
    url := a.url
    source_name := a.source_name
    author := some a.author
    published_at := a.published_at
    summary := some a.summary
    source_url := some a.source_url
    collected_at := some a.collected_at
    content_hash := a.content_hash
    image_url := a.image_url
    language := a.language
    analysis_status := "not_analyzed"
    analysis_id := none
    created_at := a.collected_at
    word_count := none
    reading_time := none
    content_extracted_at := none }

/-- `RSSCollectionService._store_articles`: for each candidate, skip it when
a row with the same content hash or URL exists, otherwise insert; returns the
new store and `stored_count`. -/
def store_articles (s : Store) : List RawArticle → Store × Nat
  | [] => (s, 0)
  | a :: rest =>
    if existsByHashOrUrl s a.content_hash a.url then
      store_articles s rest
    else
      let s' : Store := ⟨s.rows ++ [mkInsertRow a]⟩
      let res := store_articles s' rest
      (res.1, res.2 + 1)

/-! ## Retention sweep (`_cleanup_old_articles`) -/

def secondsPerDay : Int := 86400

/-- `RSSCollectionService._cleanup_old_articles`: delete every row whose
`collected_at` is non-null and strictly before `now - 30 days`. -/
def cleanup_old_articles (now : Int) (s : Store) : Store :=
  let cutoff := now - 30 * secondsPerDay
  ⟨s.rows.filter (fun r =>
    match r.collected_at with
    | some t => !(t < cutoff : Bool)
    | none => true)⟩

/-! ## The ingestion orchestrator (`collect_all_feeds`) -/

/-- The aggregate statistics dict (the `timestamp` field and wall-clock
`processing_time` are outside the model; `processing_time` is carried as an
opaque input). -/
structure CollectionStats where
  feeds_processed : Nat
  total_articles_found : Nat
  new_articles_stored : Nat
  processing_time : Nat
  errors : List String
deriving DecidableEq, Repr

/-- The error message format of the gather loop. -/
def feedErrorEntry (source_name msg : String) : String :=
  "Error fetching " ++ source_name ++ ": " ++ msg

/-- The result-processing loop of `collect_all_feeds`, mirroring the source's
three accumulators (`errors`, `all_articles`, `total_articles_found`).  Each
gathered result is either the per-source article list or an exception that
escaped the task (`Except.error`). -/
def processGatherResults
    (results : List (String × Except String (List RawArticle))) :
    List String × List RawArticle × Nat :=
  results.foldl
    (fun acc pr =>
      match pr.2 with
      | Except.error e => (acc.1 ++ [feedErrorEntry pr.1 e], acc.2.1, acc.2.2)
      | Except.ok arts => (acc.1, acc.2.1 ++ arts, acc.2.2 + arts.length))
    ([], [], 0)

/-- Declarative reading of the gather loop: the error entries, one per
failed task, in source order. -/
def gatherErrors (results : List (String × Except String (List RawArticle))) :
    List String :=
  results.filterMap (fun pr =>
    match pr.2 with
    | Except.error e => some (feedErrorEntry pr.1 e)
    | Except.ok _ => none)

/-- Declarative reading of the gather loop: all articles of the successful
tasks, in source order. -/
def gatherArticles
    (results : List (String × Except String (List RawArticle))) :
    List RawArticle :=
  results.flatMap (fun pr =>
    match pr.2 with
    | Except.error _ => []
    | Except.ok arts => arts)

/-- `RSSCollectionService.collect_all_feeds`, with the concurrent gather
replaced by its per-source outcomes (`asyncio.gather(..., return_exceptions=
True)` pairs each source with either its article list or its exception):
process results, store candidates, run the retention sweep, return the
statistics and the final store. -/
def collect_all_feeds
    (results : List (String × Except String (List RawArticle)))
    (now : Int) (elapsed : Nat) (s : Store) : CollectionStats × Store :=
  let processed := processGatherResults results
  let stored := store_articles s processed.2.1
  let sFinal := cleanup_old_articles now stored.1
  ({ feeds_processed := results.length
     total_articles_found := processed.2.2
     new_articles_stored := stored.2
     processing_time := elapsed
     errors := processed.1 }, sFinal)

/-! ## Scheduler (`scheduler_service.py`) -/

/-- `SchedulerService._daily_cleanup`: the body only writes log lines ("For
now, the RSS service handles its own cleanup"); it performs no store
operation, so on the store it is the identity. -/
def daily_cleanup (s : Store) : Store := s

/-! ## Content extraction (`content_extraction_service.py`)

The three strategies call external libraries (newspaper3k, readability,
BeautifulSoup); a run of `extract_content` is therefore modelled from the
point where the strategy outcomes are known: a list, in examination order,
of `Option StratResult` (`none` = the strategy reported failure or raised —
a raise inside the scoring block is caught by the same per-strategy guard
and likewise discards the strategy, which is why `content` can be taken as a
string: a `None` content crashes `len` and discards the result). -/

/-- A successful strategy result dict. -/
structure StratResult where
  title : Option String
  content : String
  author : Option String
  publishDate : Option String
  description : Option String
  images : List String
  strategy : String
deriving DecidableEq, Repr

/-- Python truthiness of an optional string (`bool(result.get(k))`). -/
def pyTruthy (o : Option String) : Bool :=
  match o with
  | none => false
  | some s => !s.isEmpty

/-- The quality score: `len(content) + 100·has(title) + 50·has(author) +
50·has(publishDate)`, where `has` is Python truthiness. -/
def scoreResult (r : StratResult) : Nat :=
  r.content.length + (if pyTruthy r.title then 100 else 0) +
    (if pyTruthy r.author then 50 else 0) +
    (if pyTruthy r.publishDate then 50 else 0)

/-- The strategy loop of `extract_content`: walk the outcomes keeping
`(best_result, best_score)`, updating on `score > best_score`. -/
def selectBestAux : Option StratResult → Nat → List (Option StratResult) →
    Option StratResult × Nat
  | best, bestScore, [] => (best, bestScore)
  | best, bestScore, o :: rest =>
    match o with
    | none => selectBestAux best bestScore rest
    | some r =>
      if bestScore < scoreResult r then selectBestAux (some r) (scoreResult r) rest
      else selectBestAux best bestScore rest

def selectBest (l : List (Option StratResult)) : Option StratResult × Nat :=
  selectBestAux none 0 l

/-- The extraction error kinds of §7. -/
inductive ExtractErr where
  | invalidUrl : ExtractErr
  | httpError : Nat → ExtractErr
  | timeout : ExtractErr
  | fetchError : String → ExtractErr
  | extractionFailed : ExtractErr
deriving DecidableEq, Repr

/-- The success payload (`data` dict) of `extract_content`. -/
structure ExtractData where
  title : String
  content : String
  author : Option String
  publishDate : Option String
  images : List String
  description : Option String
  wordCount : Nat
  readingTime : Nat
  extractionStrategy : String
  processingTime : Nat
deriving DecidableEq, Repr

/-- `ContentExtractionService.extract_content` from the strategy outcomes on:
URL validation and the HTML fetch are abstracted into the `fetched` input
(`Except.error` carries `INVALID_URL` / `HTTP_ERROR` / `TIMEOUT` /
`FETCH_ERROR`).  On outcomes, run the selection loop; `EXTRACTION_FAILED`
when no result was kept or the best score is 0; otherwise assemble the data
dict with word count and reading time. -/
def extract_content (fetched : Except ExtractErr (List (Option StratResult)))
    (elapsed : Nat) : Except ExtractErr ExtractData :=
  match fetched with
  | Except.error e => Except.error e
  | Except.ok outcomes =>
    let sel := selectBest outcomes
    match sel.1 with
    | none => Except.error ExtractErr.extractionFailed
    | some r =>
      if sel.2 = 0 then Except.error ExtractErr.extractionFailed
      else
        Except.ok
          { title := if pyTruthy r.title then r.title.getD "" else "Untitled"
            content := r.content
            author := r.author
            publishDate := r.publishDate
            images := r.images
            description := r.description
            wordCount := pyWordCount r.content
            readingTime := calculate_reading_time (pyWordCount r.content)
            extractionStrategy := r.strategy
            processingTime := elapsed }

/-! ## On-demand extraction of a stored article (`extract_article_content`) -/

/-- `select("*").eq("id", id)` followed by `result.data[0]`: the first row
with the given id. -/
def findArticle (s : Store) (article_id : String) : Option ArticleRow :=
  s.rows.find? (fun r => r.id = article_id)

/-- Python falsiness of the stored `image_url` (`not article.get('image_url')`:
null or empty). -/
def pyFalsyImage (o : Option String) : Bool :=
  match o with
  | none => true
  | some s => s.isEmpty

/-- The `update_data` dict applied to a row: content, word count, reading
time, extraction timestamp, plus `image_url` when a new image was chosen. -/
def applyContentUpdate (data : ExtractData) (now : Int)
    (newImage : Option String) (r : ArticleRow) : ArticleRow :=
  let r1 := { r with
    content := data.content
    word_count := some data.wordCount
    reading_time := some data.readingTime
    content_extracted_at := some now }
  match newImage with
  | some u => { r1 with image_url := some u }
  | none => r1

/-- The `new_image_url` computation: `data['images'][0]` when the article has
no truthy image and images were extracted, and — per the source's
`if new_image_url:` guard — only when that first image is itself truthy. -/
def chooseNewImage (article : ArticleRow) (data : ExtractData) :
    Option String :=
  match (if pyFalsyImage article.image_url then data.images.head? else none) with
  | some u => if u.isEmpty then none else some u
  | none => none

/-- `RSSCollectionService.extract_article_content`: look the article up,
run content extraction on its URL (abstracted into `fetched`), and on
success update the row.  On a missing article or an extraction error,
return `None` and leave the store untouched. -/
def extract_article_content
    (fetched : Except ExtractErr (List (Option StratResult)))
    (elapsed : Nat) (now : Int) (s : Store) (article_id : String) :
    Option ExtractData × Store :=
  match findArticle s article_id with
  | none => (none, s)
  | some article =>
    match extract_content fetched elapsed with
    | Except.error _ => (none, s)
    | Except.ok data =>
      let newImage := chooseNewImage article data
      let sNew : Store :=
        ⟨s.rows.map (fun r =>
          if r.id = article_id then applyContentUpdate data now newImage r
          else r)⟩
      (some data, sNew)

/-! ## Spec-side definitions

The following definitions are written from the specification's words (not
from the source); each is compared with the corresponding source-derived
definition by a refinement theorem. -/

/-- Image tier 1 per the spec: "a media-thumbnail URL". -/
def specImageTier1 (e : RssEntry) : Option String :=
  e.media_thumbnail.findSome? id

/-- Image tier 2 per the spec's words: "a media-content URL only when its
MIME type is an image type or its URL has an image-like file extension". -/
def specImageTier2Claim (e : RssEntry) : Option String :=
  e.media_content.findSome? (fun m =>
    match m.url with
    | none => none
    | some u =>
      if strStartsWith (strToLower m.type) "image" ||
          imageExtensions.any (fun ext => strEndsWith (strToLower u) ext)
      then some u else none)

/-- Image tier 2 as the code has it: an empty or `unknown` MIME type is also
accepted. -/
def specImageTier2Amended (e : RssEntry) : Option String :=
  e.media_content.findSome? (fun m =>
    match m.url with
    | none => none
    | some u => if isImageMediaContent m.type u then some u else none)

/-- Image tier 3 per the spec: "an enclosure of image type" (its href; a
missing href yields the empty URL, as the code's `.get('href', '')`). -/
def specImageTier3 (e : RssEntry) : Option String :=
  e.enclosures.findSome? (fun enc =>
    if strStartsWith enc.type "image" then some (enc.href.getD "") else none)

/-- Image tier 4 per the spec's words: "the first inline img src inside the
entry's HTML description". -/
def specImageTier4Claim (e : RssEntry) : Option String :=
  match e.description_imgs with
  | none => none
  | some imgs => imgs.findSome? id

/-- Image tier 4 as the code has it: the first img src that starts with
`http`. -/
def specImageTier4Amended (e : RssEntry) : Option String :=
  match e.description_imgs with
  | none => none
  | some imgs =>
    imgs.findSome? (fun src? =>
      match src? with
      | some src => if strStartsWith src "http" then some src else none
      | none => none)

/-- The image-selection procedure exactly as claimed: the four tiers in
priority order, first hit wins. -/
def imageSelectionSpecClaim (e : RssEntry) : Option String :=
  [specImageTier1 e, specImageTier2Claim e, specImageTier3 e,
    specImageTier4Claim e].findSome? id

/-- The image-selection procedure with the two tier filters amended to match
the code. -/
def imageSelectionSpecAmended (e : RssEntry) : Option String :=
  [specImageTier1 e, specImageTier2Amended e, specImageTier3 e,
    specImageTier4Amended e].findSome? id

/-- The language-resolution procedure as the spec words it: first match wins
among (1) the entry-level tag, (2) the feed-level tags (`language`, then the
root `lang` attribute), each normalized by the `ar`/`fr`/`en` prefix test,
then (3) statistical detection over `title + " " + summary` after boilerplate
cleaning, gated on the cleaned string being ≥ 20 characters, with raw
detector output mapped through the fixed table; (4) otherwise `unknown`. -/
def language_resolution_spec (detect : String → Option String)
    (fm : FeedMeta) (e : RssEntry) (title summary : String) : String :=
  match normLangTag e.language with
  | some l => l
  | none =>
  match normLangTag fm.language with
  | some l => l
  | none =>
  match normLangTag fm.lang with
  | some l => l
  | none =>
    let cleaned := clean_text (pyStrip (title ++ " " ++ summary))
    if 20 ≤ cleaned.length then
      match detect cleaned with
      | none => "unknown"
      | some code => language_mapping code
    else "unknown"

/-- The best score over a list of strategy outcomes (0 when no strategy
succeeded). -/
def maxStratScore (l : List (Option StratResult)) : Nat :=
  l.foldr (fun o acc =>
    match o with
    | none => acc
    | some r => max (scoreResult r) acc) 0

/-- The first successful result attaining a given score. -/
def firstWithScore (m : Nat) (l : List (Option StratResult)) :
    Option StratResult :=
  l.findSome? (fun o =>
    match o with
    | none => none
    | some r => if scoreResult r = m then some r else none)

/-- The selection rule as the spec words it: the maximum-scoring successful
result, ties keeping the first examined; no winner when no strategy succeeds
or the winning score is 0. -/
def strategy_selection_spec (l : List (Option StratResult)) :
    Option StratResult :=
  if maxStratScore l = 0 then none else firstWithScore (maxStratScore l) l

/-! ## Sample data for concrete instances -/

/-- A stored row with the given collection timestamp (all other fields
arbitrary but fixed). -/
def sampleRow (c : Option Int) : ArticleRow :=
  { id := "r1"
    title := "Sample"
    content := "Sample\n\n(Click to read full article)"
    url := "http://example.tn/a"
    source_name := "TAP"
    author := none
    published_at := none
    summary := none
    source_url := none
    collected_at := c
    content_hash := "h1"
    image_url := none
    language := "unknown"
    analysis_status := "not_analyzed"
    analysis_id := none
    created_at := 0
    word_count := none
    reading_time := none
    content_extracted_at := none }

/-- A candidate article collected at `40 * secondsPerDay`, for concrete
instances. -/
def sampleRawArticle : RawArticle :=
  { title := "Sample"
    url := "http://example.tn/a"
    summary := ""
    author := ""
    published_at := none
    source_name := "TAP"
    source_url := "https://www.tap.info.tn/rss"
    content_hash := "h1"
    image_url := none
    language := "fr"
    collected_at := 40 * secondsPerDay }

/-- A successful strategy outcome for witnesses: content of length 10 plus a
title, score 110. -/
def sampleStrat1 : StratResult :=
  { title := some "T", content := "abcdefghij", author := none
    publishDate := none, description := none, images := []
    strategy := "newspaper3k" }

/-- A weaker successful strategy outcome, score 2. -/
def sampleStrat2 : StratResult :=
  { title := none, content := "xy", author := none, publishDate := none
    description := none, images := [], strategy := "beautifulsoup" }

/-- A successful strategy outcome with a title but empty content: its score
is 100, so extraction succeeds with empty content. -/
def emptyContentResult : StratResult :=
  { title := some "T", content := "", author := none, publishDate := none
    description := none, images := [], strategy := "readability" }

/-! # Theorems

The general lemmas about the string utilities, then the claim
theorems, witnesses and counterexamples. -/

theorem findTagEnd_eq_append (l pre post : List Char)
    (h : findTagEnd l = some (pre, post)) : l = pre ++ '>' :: post := by
  induction l generalizing pre post with
  | nil => simp [findTagEnd] at h
  | cons c rest ih =>
    by_cases hc : c = '>'
    · simp only [findTagEnd, hc, if_true, Option.some.injEq, Prod.mk.injEq] at h
      obtain ⟨h1, h2⟩ := h
      subst h1; subst h2
      simp [hc]
    · simp only [findTagEnd, hc, if_false] at h
      cases hfind : findTagEnd rest with
      | none => rw [hfind] at h; cases h
      | some pr =>
        obtain ⟨pre2, post2⟩ := pr
        rw [hfind] at h
        simp only [Option.some.injEq, Prod.mk.injEq] at h
        obtain ⟨h1, h2⟩ := h
        subst h2
        have hrest := ih pre2 post2 hfind
        rw [← h1, hrest]
        simp

/-! ### Length and idempotence lemmas for the string utilities -/

theorem length_removeTagsAux_le (fuel : Nat) (l : List Char) :
    (removeTagsAux fuel l).length ≤ l.length := by
  induction fuel generalizing l with
  | zero => simp [removeTagsAux]
  | succ n ih =>
    cases l with
    | nil => simp [removeTagsAux]
    | cons c rest =>
      simp only [removeTagsAux]
      split
      · cases hfind : findTagEnd rest with
        | none => simpa using Nat.succ_le_succ (ih rest)
        | some pr =>
          obtain ⟨between, post⟩ := pr
          have hlen : post.length ≤ rest.length := by
            have := findTagEnd_eq_append rest between post hfind
            rw [this]
            simp
            omega
          simp only
          split
          · simpa using Nat.succ_le_succ (ih rest)
          · exact le_trans (le_trans (ih post) hlen) (Nat.le_succ _)
      · simpa using Nat.succ_le_succ (ih rest)

theorem length_removeTags_le (l : List Char) : (removeTags l).length ≤ l.length :=
  length_removeTagsAux_le l.length l

theorem length_wsToSpace (l : List Char) : (wsToSpace l).length = l.length := by
  simp [wsToSpace]

theorem length_squeezeSpaces_le (l : List Char) :
    (squeezeSpaces l).length ≤ l.length := by
  induction l with
  | nil => simp [squeezeSpaces]
  | cons a rest ih =>
    cases rest with
    | nil => simp [squeezeSpaces]
    | cons b rest2 =>
      simp only [squeezeSpaces]
      split
      · exact le_trans ih (Nat.le_succ _)
      · simpa using Nat.succ_le_succ ih

theorem length_dropWhile_le (p : Char → Bool) (l : List Char) :
    (l.dropWhile p).length ≤ l.length := by
  induction l with
  | nil => simp
  | cons a rest ih =>
    by_cases h : p a
    · simp only [List.dropWhile_cons, h, if_true]
      exact le_trans ih (Nat.le_succ _)
    · simp [List.dropWhile_cons, h]

theorem length_trimWs_le (l : List Char) : (trimWs l).length ≤ l.length := by
  unfold trimWs
  calc ((l.dropWhile isWsChar).reverse.dropWhile isWsChar).reverse.length
      = ((l.dropWhile isWsChar).reverse.dropWhile isWsChar).length := by
        simp
    _ ≤ (l.dropWhile isWsChar).reverse.length := length_dropWhile_le _ _
    _ = (l.dropWhile isWsChar).length := by simp
    _ ≤ l.length := length_dropWhile_le _ _

theorem length_clean_text_le (s : String) : (clean_text s).length ≤ s.length := by
  show (trimWs (squeezeSpaces (wsToSpace (removeTags s.data)))).length ≤ s.data.length
  calc (trimWs (squeezeSpaces (wsToSpace (removeTags s.data)))).length
      ≤ (squeezeSpaces (wsToSpace (removeTags s.data))).length := length_trimWs_le _
    _ ≤ (wsToSpace (removeTags s.data)).length := length_squeezeSpaces_le _
    _ = (removeTags s.data).length := length_wsToSpace _
    _ ≤ s.data.length := length_removeTags_le _

theorem dropWhile_dropWhile (p : Char → Bool) (l : List Char) :
    (l.dropWhile p).dropWhile p = l.dropWhile p := by
  induction l with
  | nil => simp
  | cons a rest ih =>
    by_cases h : p a
    · simp only [List.dropWhile_cons, h, if_true]
      exact ih
    · simp [List.dropWhile_cons, h]

theorem head_dropWhile_not (p : Char → Bool) (l : List Char) (c : Char)
    (h : (l.dropWhile p).head? = some c) : p c = false := by
  induction l with
  | nil => simp at h
  | cons a rest ih =>
    cases ha : p a with
    | true =>
      simp only [List.dropWhile_cons, ha, if_true] at h
      exact ih h
    | false =>
      simp only [List.dropWhile_cons, ha, Bool.false_eq_true, if_false,
        List.head?_cons, Option.some.injEq] at h
      subst h
      exact ha

theorem dropWhile_eq_self_of_head (p : Char → Bool) (l : List Char)
    (h : ∀ c, l.head? = some c → p c = false) : l.dropWhile p = l := by
  cases l with
  | nil => simp
  | cons a rest =>
    have := h a (by simp)
    simp [List.dropWhile_cons, this]

theorem trimWs_idem (l : List Char) : trimWs (trimWs l) = trimWs l := by
  unfold trimWs
  set m := l.dropWhile isWsChar with hm
  set r := (m.reverse.dropWhile isWsChar).reverse with hr
  have hdrop_r : r.dropWhile isWsChar = r := by
    apply dropWhile_eq_self_of_head
    intro c hc
    rw [hr, List.head?_reverse] at hc
    have hlast : (m.reverse.dropWhile isWsChar).getLast? = some c := hc
    rcases h0 : m.reverse.dropWhile isWsChar with _ | ⟨d, tail⟩
    · rw [h0] at hlast; simp at hlast
    · have hsplit := List.takeWhile_append_dropWhile (p := isWsChar) (l := m.reverse)
      have hrev : m.reverse = m.reverse.takeWhile isWsChar ++ (d :: tail) := by
        rw [← h0, hsplit]
      have : m.reverse.getLast? = some c := by
        rw [hrev, List.getLast?_append]
        have htail : (d :: tail).getLast? = some c := by rw [← h0, hlast]
        rw [htail]
        simp
      rw [List.getLast?_reverse] at this
      exact head_dropWhile_not isWsChar l c (hm ▸ this)
  rw [hdrop_r]
  have : r.reverse.dropWhile isWsChar = r.reverse := by
    apply dropWhile_eq_self_of_head
    intro c hc
    rw [hr] at hc
    simp only [List.reverse_reverse] at hc
    exact head_dropWhile_not isWsChar m.reverse c hc
  rw [this]
  simp [hr]

theorem pyStrip_idem (s : String) : pyStrip (pyStrip s) = pyStrip s := by
  simp [pyStrip, trimWs_idem]

theorem length_pyStrip_data (s : String) :
    (pyStrip s).length = (trimWs s.data).length := rfl

/-- `calculate_reading_time` as a closed natural-number formula:
`round (w / 225)` equals `⌊(2w + 225) / 450⌋`, i.e. Nat division. -/
theorem calculate_reading_time_eq_div (w : Nat) :
    calculate_reading_time w = max 1 ((2 * w + 225) / 450) := by
  unfold calculate_reading_time
  rw [round_eq]
  have h1 : ((w : ℚ)) / 225 + 1 / 2 = ((2 * w + 225 : ℕ) : ℚ) / ((450 : ℕ) : ℚ) := by
    push_cast
    ring
  rw [h1, Int.floor_toNat, Nat.floor_div_eq_div]

/-! ## Claim C2 — reading time -/

/-- Claim C2, counterexample: at `wordCount = 226` the code computes
`max(1, round(226/225)) = 1`, while the claimed law
`max(1, ceil(226/225))` gives `2`. -/
theorem reading_time_ceil_counterexample :
    calculate_reading_time 226 ≠ max 1 (Int.toNat ⌈(226 : ℚ) / 225⌉) := by
  have h1 : calculate_reading_time 226 = 1 := by
    rw [calculate_reading_time_eq_div]
    decide
  have h2 : (⌈(226 : ℚ) / 225⌉ : ℤ) = 2 := by
    norm_num [Int.ceil_eq_iff]
  rw [h1, h2]
  decide

/-- Claim C2 (amended): the reading time is `max(1, round(wordCount/225))`
with round-to-nearest — equivalently `max 1 ((2·wordCount + 225) / 450)` in
integer arithmetic (no tie can occur since 225 is odd) — and in particular
`wordCount = 0 → 1`, `wordCount = 225 → 1`, `wordCount = 450 → 2`. -/
theorem reading_time_law :
    (∀ w : Nat, calculate_reading_time w = max 1 ((2 * w + 225) / 450)) ∧
    calculate_reading_time 0 = 1 ∧ calculate_reading_time 225 = 1 ∧
    calculate_reading_time 450 = 2 := by
  refine ⟨calculate_reading_time_eq_div, ?_, ?_, ?_⟩ <;>
    · rw [calculate_reading_time_eq_div]
      decide

/-! ## Claim C6 — retention sweep -/

/-- Claim C6: the sweep at time `now` keeps exactly the rows whose
`collected_at` is null or not older than 30 days; concretely, at a fixed
sweep time a feed-origin row collected 31 days ago is deleted, one collected
29 days ago is retained, and a row with null `collected_at` is retained
regardless of age. -/
theorem retention_sweep_boundary :
    (∀ (now : Int) (s : Store) (r : ArticleRow),
       r ∈ (cleanup_old_articles now s).rows ↔
         r ∈ s.rows ∧
           ∀ t, r.collected_at = some t → ¬ t < now - 30 * secondsPerDay) ∧
    (cleanup_old_articles (40 * secondsPerDay)
        ⟨[sampleRow (some (9 * secondsPerDay))]⟩).rows = [] ∧
    (cleanup_old_articles (40 * secondsPerDay)
        ⟨[sampleRow (some (11 * secondsPerDay))]⟩).rows =
      [sampleRow (some (11 * secondsPerDay))] ∧
    (cleanup_old_articles (40 * secondsPerDay) ⟨[sampleRow none]⟩).rows =
      [sampleRow none] := by
  refine ⟨?_, by decide, by decide, by decide⟩
  intro now s r
  unfold cleanup_old_articles
  simp only [List.mem_filter]
  constructor
  · rintro ⟨hmem, hp⟩
    refine ⟨hmem, ?_⟩
    intro t ht
    rw [ht] at hp
    simp only [Bool.not_eq_eq_eq_not, Bool.not_true, decide_eq_false_iff_not] at hp
    exact hp
  · rintro ⟨hmem, hp⟩
    refine ⟨hmem, ?_⟩
    cases hc : r.collected_at with
    | none => simp
    | some t =>
      have := hp t hc
      simp [this]

/-! ## Claim C8 — representative image selection -/

/-- Claim C8, counterexample: (1) a media-content item with empty MIME type
and a non-image URL is accepted by the code (`type == ''` is in its
`is_image` test) but rejected by the claimed filter, which would fall through
to the enclosure tier; (2) a relative description img src is skipped by the
code's `startswith('http')` guard but is "the first inline img src" of the
claim. -/
theorem image_selection_counterexample :
    (extract_main_image_from_rss_entry
        { title := none, link := none, summary := none, author := none
          published := none, language := none, media_thumbnail := []
          media_content := [{ url := some "http://x.tn/clip.mp4", type := "" }]
          enclosures := [{ type := "image/jpeg", href := some "http://x.tn/p.jpg" }]
          description_imgs := none } ≠
      imageSelectionSpecClaim
        { title := none, link := none, summary := none, author := none
          published := none, language := none, media_thumbnail := []
          media_content := [{ url := some "http://x.tn/clip.mp4", type := "" }]
          enclosures := [{ type := "image/jpeg", href := some "http://x.tn/p.jpg" }]
          description_imgs := none }) ∧
    (extract_main_image_from_rss_entry
        { title := none, link := none, summary := none, author := none
          published := none, language := none, media_thumbnail := []
          media_content := [], enclosures := []
          description_imgs := some [some "/img/a.jpg"] } ≠
      imageSelectionSpecClaim
        { title := none, link := none, summary := none, author := none
          published := none, language := none, media_thumbnail := []
          media_content := [], enclosures := []
          description_imgs := some [some "/img/a.jpg"] }) := by
  constructor <;> decide

/-- Claim C8 (amended): the representative image is the first hit of the four
priority tiers — media-thumbnail URL; media-content URL when its MIME type
starts with `image`, is empty or `unknown`, or its URL has an image-like
extension; enclosure of image type; first inline img src starting with
`http` in the description — otherwise no image. -/
theorem image_selection_priority (e : RssEntry) :
    extract_main_image_from_rss_entry e = imageSelectionSpecAmended e := by
  unfold extract_main_image_from_rss_entry imageSelectionSpecAmended
  unfold specImageTier1 specImageTier2Amended specImageTier3
    specImageTier4Amended
  simp only [List.findSome?_cons, List.findSome?_nil, id]
  cases e.media_thumbnail.findSome? id with
  | some u => rfl
  | none =>
    simp only
    cases e.media_content.findSome? (fun m =>
        match m.url with
        | none => none
        | some u => if isImageMediaContent m.type u then some u else none) with
    | some u => rfl
    | none =>
      simp only
      cases e.enclosures.findSome? (fun enc =>
          if strStartsWith enc.type "image" then some (enc.href.getD "") else none) with
      | some u => rfl
      | none =>
        simp only
        cases e.description_imgs with
        | none => rfl
        | some imgs =>
          simp only
          cases hf : imgs.findSome? (fun src? =>
              match src? with
              | some src => if strStartsWith src "http" then some src else none
              | none => none) with
          | some u => simp [hf]
          | none => simp [hf]

/-! ## Gather-loop characterization (shared by C7 and C9) -/

/-- Generalized fold invariant for the result-processing loop of
`collect_all_feeds`. -/
theorem processGather_fold
    (results : List (String × Except String (List RawArticle)))
    (es : List String) (arts : List RawArticle) (n : Nat) :
    results.foldl
      (fun acc pr =>
        match pr.2 with
        | Except.error e => (acc.1 ++ [feedErrorEntry pr.1 e], acc.2.1, acc.2.2)
        | Except.ok a => (acc.1, acc.2.1 ++ a, acc.2.2 + a.length))
      (es, arts, n) =
      (es ++ gatherErrors results, arts ++ gatherArticles results,
        n + (gatherArticles results).length) := by
  induction results generalizing es arts n with
  | nil => simp [gatherErrors, gatherArticles]
  | cons pr rest ih =>
    obtain ⟨name, outcome⟩ := pr
    cases outcome with
    | error e =>
      simp only [List.foldl_cons, ih, gatherErrors, gatherArticles,
        List.filterMap_cons, List.flatMap_cons]
      simp
    | ok arts2 =>
      simp only [List.foldl_cons, ih, gatherErrors, gatherArticles,
        List.filterMap_cons, List.flatMap_cons]
      simp [List.append_assoc]
      omega

/-- The loop accumulators equal their declarative readings. -/
theorem processGatherResults_eq
    (results : List (String × Except String (List RawArticle))) :
    processGatherResults results =
      (gatherErrors results, gatherArticles results,
        (gatherArticles results).length) := by
  unfold processGatherResults
  simpa using processGather_fold results [] [] 0

/-- Full characterization of `collect_all_feeds` in terms of the declarative
gather readings, used by the orchestrator claims. -/
theorem collect_all_feeds_spec
    (results : List (String × Except String (List RawArticle)))
    (now : Int) (elapsed : Nat) (s : Store) :
    collect_all_feeds results now elapsed s =
      ({ feeds_processed := results.length
         total_articles_found := (gatherArticles results).length
         new_articles_stored := (store_articles s (gatherArticles results)).2
         processing_time := elapsed
         errors := gatherErrors results },
        cleanup_old_articles now (store_articles s (gatherArticles results)).1) := by
  unfold collect_all_feeds
  rw [processGatherResults_eq]

/-! ## Claim C3 — dedup idempotence of ingestion -/

/-- Inserting never removes rows: every row of the input store survives a
`_store_articles` run. -/
theorem store_articles_rows_mono (l : List RawArticle) (s : Store)
    (r : ArticleRow) (h : r ∈ s.rows) : r ∈ (store_articles s l).1.rows := by
  induction l generalizing s with
  | nil => simpa [store_articles] using h
  | cons a rest ih =>
    unfold store_articles
    by_cases hex : existsByHashOrUrl s a.content_hash a.url
    · rw [if_pos hex]
      exact ih s h
    · rw [if_neg hex]
      simp only
      exact ih ⟨s.rows ++ [mkInsertRow a]⟩ (by simp [h])

/-- The duplicate probe is monotone under `_store_articles`. -/
theorem existsByHashOrUrl_mono (l : List RawArticle) (s : Store)
    (hsh u : String) (h : existsByHashOrUrl s hsh u = true) :
    existsByHashOrUrl (store_articles s l).1 hsh u = true := by
  rw [existsByHashOrUrl, List.any_eq_true] at h ⊢
  obtain ⟨r, hmem, hr⟩ := h
  exact ⟨r, store_articles_rows_mono l s r hmem, hr⟩

/-- After a `_store_articles` run, every processed candidate matches the
store by hash or URL: it was either skipped because a matching row existed
(and rows are never removed) or inserted (and the inserted row carries its
hash). -/
theorem store_articles_covers (l : List RawArticle) (s : Store)
    (a : RawArticle) (h : a ∈ l) :
    existsByHashOrUrl (store_articles s l).1 a.content_hash a.url = true := by
  induction l generalizing s with
  | nil => cases h
  | cons b rest ih =>
    unfold store_articles
    rcases List.mem_cons.mp h with hab | ha
    · subst hab
      by_cases hex : existsByHashOrUrl s a.content_hash a.url
      · rw [if_pos hex]
        exact existsByHashOrUrl_mono rest s _ _ hex
      · rw [if_neg hex]
        simp only
        apply existsByHashOrUrl_mono
        rw [existsByHashOrUrl, List.any_eq_true]
        exact ⟨mkInsertRow a, by simp, by simp [mkInsertRow]⟩
    · by_cases hex : existsByHashOrUrl s b.content_hash b.url
      · rw [if_pos hex]
        exact ih s ha
      · rw [if_neg hex]
        simp only
        exact ih _ ha

/-- When every candidate already matches the store, `_store_articles` skips
them all: the store is unchanged and `stored_count = 0`. -/
theorem store_articles_all_skipped (l : List RawArticle) (s : Store)
    (h : ∀ a ∈ l, existsByHashOrUrl s a.content_hash a.url = true) :
    store_articles s l = (s, 0) := by
  induction l with
  | nil => rfl
  | cons a rest ih =>
    unfold store_articles
    rw [if_pos (h a (List.mem_cons_self _ _))]
    exact ih (fun b hb => h b (List.mem_cons_of_mem _ hb))

/-- Every row of the store after a `_store_articles` run is either an
original row or the insert of one of the candidates. -/
theorem store_articles_rows_from (l : List RawArticle) (s : Store)
    (r : ArticleRow) (h : r ∈ (store_articles s l).1.rows) :
    r ∈ s.rows ∨ ∃ a ∈ l, r = mkInsertRow a := by
  induction l generalizing s with
  | nil => exact Or.inl (by simpa [store_articles] using h)
  | cons a rest ih =>
    unfold store_articles at h
    by_cases hex : existsByHashOrUrl s a.content_hash a.url
    · rw [if_pos hex] at h
      rcases ih s h with h1 | ⟨b, hb, hr⟩
      · exact Or.inl h1
      · exact Or.inr ⟨b, List.mem_cons_of_mem _ hb, hr⟩
    · rw [if_neg hex] at h
      simp only at h
      rcases ih ⟨s.rows ++ [mkInsertRow a]⟩ h with h1 | ⟨b, hb, hr⟩
      · rcases List.mem_append.mp h1 with h2 | h2
        · exact Or.inl h2
        · exact Or.inr ⟨a, List.mem_cons_self _ _, by simpa using h2⟩
      · exact Or.inr ⟨b, List.mem_cons_of_mem _ hb, hr⟩

/-- The retention sweep keeps a store whose every row is fresh (null
`collected_at` or not older than the horizon) unchanged. -/
theorem cleanup_eq_self_of_fresh (now : Int) (s : Store)
    (h : ∀ r ∈ s.rows, ∀ t, r.collected_at = some t →
      ¬ t < now - 30 * secondsPerDay) :
    cleanup_old_articles now s = s := by
  have hfilter : s.rows.filter (fun r =>
      match r.collected_at with
      | some t => !(t < now - 30 * secondsPerDay : Bool)
      | none => true) = s.rows := by
    rw [List.filter_eq_self]
    intro r hr
    cases hc : r.collected_at with
    | none => simp
    | some t =>
      have := h r hr t hc
      simp [this]
  show ({ rows := s.rows.filter (fun r =>
      match r.collected_at with
      | some t => !(t < now - 30 * secondsPerDay : Bool)
      | none => true) } : Store) = s
  rw [hfilter]

/-- Claim C3 (amended): running `_store_articles` a second time with the same
candidate list (the unchanged feed snapshot) against the store state that the
first store pass produced inserts nothing — `newArticlesStored = 0` — and
leaves the store unchanged, because every entry now matches the store by
content hash or URL; lifted to the full ingestion run (which ends with the
retention sweep), a second `collect_all_feeds` run over the same gather
results reports `newArticlesStored = 0` provided the initial store's rows and
the snapshot's articles are within the first run's retention horizon, so the
sweep between the runs deletes nothing.  Without that proviso the claim
fails: see the counterexample, where the sweep deletes a stale stored
duplicate after it caused the entry to be skipped. -/
theorem ingestion_dedup_idempotent :
    (∀ (s : Store) (l : List RawArticle),
      store_articles (store_articles s l).1 l = ((store_articles s l).1, 0)) ∧
    (∀ (results : List (String × Except String (List RawArticle)))
       (now now2 : Int) (elapsed elapsed2 : Nat) (s : Store),
      (∀ r ∈ s.rows, ∀ t, r.collected_at = some t →
        ¬ t < now - 30 * secondsPerDay) →
      (∀ a ∈ gatherArticles results,
        ¬ a.collected_at < now - 30 * secondsPerDay) →
      (collect_all_feeds results now2 elapsed2
          ((collect_all_feeds results now elapsed s).2)).1.new_articles_stored
        = 0) := by
  have hbase : ∀ (s : Store) (l : List RawArticle),
      store_articles (store_articles s l).1 l = ((store_articles s l).1, 0) :=
    fun s l => store_articles_all_skipped l (store_articles s l).1
      (fun a ha => store_articles_covers l s a ha)
  refine ⟨hbase, ?_⟩
  intro results now now2 elapsed elapsed2 s hs harts
  rw [collect_all_feeds_spec, collect_all_feeds_spec]
  simp only
  have hfresh : ∀ r ∈ (store_articles s (gatherArticles results)).1.rows,
      ∀ t, r.collected_at = some t → ¬ t < now - 30 * secondsPerDay := by
    intro r hr t ht
    rcases store_articles_rows_from _ _ _ hr with h1 | ⟨a, ha, hra⟩
    · exact hs r h1 t ht
    · subst hra
      have : a.collected_at = t := by
        simpa [mkInsertRow] using ht
      rw [← this]
      exact harts a ha
  rw [cleanup_eq_self_of_fresh now _ hfresh]
  rw [hbase s (gatherArticles results)]

/-- Claim C3, witness: one fresh article collected at the sweep time, an
empty store — the second orchestrator run stores nothing. -/
theorem ingestion_dedup_idempotent_witness :
    (collect_all_feeds [("TAP", Except.ok [sampleRawArticle])]
      (40 * secondsPerDay) 0
      ((collect_all_feeds [("TAP", Except.ok [sampleRawArticle])]
        (40 * secondsPerDay) 0 ⟨[]⟩).2)).1.new_articles_stored = 0 :=
  ingestion_dedup_idempotent.2 [("TAP", Except.ok [sampleRawArticle])]
    (40 * secondsPerDay) (40 * secondsPerDay) 0 0 ⟨[]⟩ (by simp)
    (by
      intro a ha
      simp only [gatherArticles, List.flatMap_cons, List.flatMap_nil,
        List.append_nil, List.mem_singleton] at ha
      subst ha
      decide)

/-- Claim C3, counterexample: a stale stored duplicate — collected 40 days
before the first run's sweep time and matching the snapshot entry by content
hash and URL — makes the first ingestion run skip the entry
(`newArticlesStored = 0`); the retention sweep ending that same run then
deletes the stale row, so the second run over the unchanged snapshot finds
no match and re-inserts the entry: `newArticlesStored = 1`, refuting "the
second run inserts nothing". -/
theorem ingestion_dedup_counterexample :
    (collect_all_feeds [("TAP", Except.ok [sampleRawArticle])]
        (40 * secondsPerDay) 0 ⟨[sampleRow (some 0)]⟩).1.new_articles_stored
      = 0 ∧
    (collect_all_feeds [("TAP", Except.ok [sampleRawArticle])]
        (40 * secondsPerDay) 0
        ((collect_all_feeds [("TAP", Except.ok [sampleRawArticle])]
          (40 * secondsPerDay) 0
          ⟨[sampleRow (some 0)]⟩).2)).1.new_articles_stored = 1 := by
  constructor <;> decide

/-! ## Claim C7 — per-source fault isolation in the orchestrator -/

/-- Claim C7, counterexample: a failing feed fetch is caught inside
`_fetch_rss_feed` and surfaces as an empty article list, so the orchestrator
records no entry for it in `errors` — the returned errors list is empty,
refuting "a failing feed fetch for one source is captured as an entry in the
returned errors list". -/
theorem feed_error_reporting_counterexample :
    fetch_rss_feed (fun _ => none) (fun s => s) 0 "TAP"
        "https://www.tap.info.tn/rss" (Except.error "connection refused") =
      [] ∧
    (collect_all_feeds
        [("TAP", Except.ok (fetch_rss_feed (fun _ => none) (fun s => s) 0
          "TAP" "https://www.tap.info.tn/rss"
          (Except.error "connection refused")))]
        0 0 ⟨[]⟩).1.errors = [] := by
  constructor <;> rfl

/-- Claim C7 (amended): an exception escaping a per-source task is captured
as an entry in the returned errors list (one entry per failed task, in
order), while a failing feed fetch inside the fetcher itself is swallowed
and yields an empty article list with no error entry; either way sibling
sources' articles are all processed, the batch completes, the retention
sweep runs on the post-insert store, and the aggregate statistics — feeds
processed, total articles found, new articles stored, errors, processing
time — are returned. -/
theorem feed_fault_isolation
    (results : List (String × Except String (List RawArticle)))
    (now : Int) (elapsed : Nat) (s : Store) :
    ((collect_all_feeds results now elapsed s).1.errors =
      gatherErrors results) ∧
    (∀ n e, (n, Except.error e) ∈ results →
      feedErrorEntry n e ∈ (collect_all_feeds results now elapsed s).1.errors) ∧
    ((collect_all_feeds results now elapsed s).1.total_articles_found =
      (gatherArticles results).length) ∧
    ((collect_all_feeds results now elapsed s).1.feeds_processed =
      results.length) ∧
    ((collect_all_feeds results now elapsed s).1.new_articles_stored =
      (store_articles s (gatherArticles results)).2) ∧
    ((collect_all_feeds results now elapsed s).1.processing_time = elapsed) ∧
    ((collect_all_feeds results now elapsed s).2 =
      cleanup_old_articles now (store_articles s (gatherArticles results)).1) ∧
    (∀ (detect : String → Option String) (md5 : String → String) (t : Int)
       (sn su msg : String),
       fetch_rss_feed detect md5 t sn su (Except.error msg) = []) := by
  rw [collect_all_feeds_spec]
  refine ⟨rfl, ?_, rfl, rfl, rfl, rfl, rfl, fun _ _ _ _ _ _ => rfl⟩
  intro n e hmem
  rw [gatherErrors, List.mem_filterMap]
  exact ⟨(n, Except.error e), hmem, rfl⟩

/-- Claim C7, witness: with one crashed task and one successful empty source,
the crashed source's message is in the returned errors list. -/
theorem feed_fault_isolation_witness :
    feedErrorEntry "Kapitalis" "boom" ∈
      (collect_all_feeds
        [("Kapitalis", Except.error "boom"), ("TAP", Except.ok [])]
        0 0 ⟨[]⟩).1.errors :=
  (feed_fault_isolation
    [("Kapitalis", Except.error "boom"), ("TAP", Except.ok [])]
    0 0 ⟨[]⟩).2.1 "Kapitalis" "boom" (by simp)

/-! ## Claim C9 — the daily cleanup job -/

/-- Claim C9, counterexample: the daily cleanup job performs no retention
sweep: run over a store holding a feed-origin article collected 31 days
before the sweep time, it retains the article that the retention sweep
would delete. -/
theorem daily_cleanup_counterexample :
    (daily_cleanup ⟨[sampleRow (some (9 * secondsPerDay))]⟩).rows =
      [sampleRow (some (9 * secondsPerDay))] ∧
    (cleanup_old_articles (40 * secondsPerDay)
        ⟨[sampleRow (some (9 * secondsPerDay))]⟩).rows = [] := by
  constructor
  · rfl
  · decide

/-- Claim C9 (amended): the daily scheduled cleanup job is a no-op on the
store (its body only logs — "the RSS service handles its own cleanup"); the
retention sweep instead runs at the end of every ingestion run of the
15-minute collection job. -/
theorem daily_cleanup_noop :
    (∀ s : Store, daily_cleanup s = s) ∧
    (∀ (results : List (String × Except String (List RawArticle)))
       (now : Int) (elapsed : Nat) (s : Store),
       (collect_all_feeds results now elapsed s).2 =
         cleanup_old_articles now (store_articles s (gatherArticles results)).1) := by
  refine ⟨fun s => rfl, ?_⟩
  intro results now elapsed s
  rw [collect_all_feeds_spec]

/-! ## Claim C4 — extraction strategy scoring and selection -/

theorem maxStratScore_cons_none (rest : List (Option StratResult)) :
    maxStratScore (none :: rest) = maxStratScore rest := rfl

theorem maxStratScore_cons_some (r : StratResult)
    (rest : List (Option StratResult)) :
    maxStratScore (some r :: rest) = max (scoreResult r) (maxStratScore rest) :=
  rfl

theorem firstWithScore_cons_none (m : Nat) (rest : List (Option StratResult)) :
    firstWithScore m (none :: rest) = firstWithScore m rest := by
  simp [firstWithScore, List.findSome?_cons]

theorem firstWithScore_cons_some (m : Nat) (r : StratResult)
    (rest : List (Option StratResult)) :
    firstWithScore m (some r :: rest) =
      (if scoreResult r = m then some r else firstWithScore m rest) := by
  by_cases h : scoreResult r = m <;>
    simp [firstWithScore, List.findSome?_cons, h]

/-- Loop invariant for the selection loop of `extract_content`: from any
accumulator `(best, s)`, the loop ends with the first result exceeding `s`
and attaining the overall best score (keeping `best` when none does), and
with the final score `max s (maxStratScore l)`. -/
theorem selectBestAux_spec (l : List (Option StratResult))
    (best : Option StratResult) (s : Nat) :
    selectBestAux best s l =
      (if maxStratScore l ≤ s then best else firstWithScore (maxStratScore l) l,
        max s (maxStratScore l)) := by
  induction l generalizing best s with
  | nil => simp [selectBestAux, maxStratScore]
  | cons o rest ih =>
    cases o with
    | none =>
      simp only [selectBestAux, maxStratScore_cons_none,
        firstWithScore_cons_none]
      exact ih best s
    | some r =>
      simp only [selectBestAux, maxStratScore_cons_some,
        firstWithScore_cons_some]
      by_cases h : s < scoreResult r
      · rw [if_pos h, ih (some r) (scoreResult r)]
        by_cases hM : maxStratScore rest ≤ scoreResult r
        · have h1 : max (scoreResult r) (maxStratScore rest) = scoreResult r := by
            omega
          rw [h1, if_pos hM, if_neg (by omega), if_pos rfl]
          congr 1
          omega
        · have h1 : max (scoreResult r) (maxStratScore rest) = maxStratScore rest := by
            omega
          rw [h1, if_neg hM, if_neg (by omega), if_neg (by omega)]
          congr 1
          omega
      · rw [if_neg h, ih best s]
        by_cases hM : maxStratScore rest ≤ s
        · rw [if_pos hM, if_pos (by omega)]
          congr 1
          omega
        · have h1 : max (scoreResult r) (maxStratScore rest) = maxStratScore rest := by
            omega
          rw [h1, if_neg hM, if_neg (by omega), if_neg (by omega)]

theorem maxStratScore_eq_zero_iff (l : List (Option StratResult)) :
    maxStratScore l = 0 ↔ ∀ r, some r ∈ l → scoreResult r = 0 := by
  induction l with
  | nil => simp [maxStratScore]
  | cons o rest ih =>
    cases o with
    | none =>
      rw [maxStratScore_cons_none, ih]
      constructor
      · intro h r hmem
        rcases List.mem_cons.mp hmem with h1 | h1
        · cases h1
        · exact h r h1
      · intro h r hmem
        exact h r (List.mem_cons_of_mem _ hmem)
    | some q =>
      rw [maxStratScore_cons_some]
      constructor
      · intro h r hmem
        rcases List.mem_cons.mp hmem with h1 | h1
        · have : r = q := by injection h1
          subst this
          omega
        · exact (ih.mp (by omega)) r h1
      · intro h
        have h1 : scoreResult q = 0 := h q (List.mem_cons_self _ _)
        have h2 : maxStratScore rest = 0 :=
          ih.mpr (fun r hmem => h r (List.mem_cons_of_mem _ hmem))
        omega

theorem firstWithScore_mem (m : Nat) (l : List (Option StratResult))
    (r : StratResult) (h : firstWithScore m l = some r) :
    some r ∈ l ∧ scoreResult r = m := by
  induction l with
  | nil => simp [firstWithScore] at h
  | cons o rest ih =>
    cases o with
    | none =>
      rw [firstWithScore_cons_none] at h
      obtain ⟨h1, h2⟩ := ih h
      exact ⟨List.mem_cons_of_mem _ h1, h2⟩
    | some q =>
      rw [firstWithScore_cons_some] at h
      by_cases hq : scoreResult q = m
      · rw [if_pos hq] at h
        injection h with h
        subst h
        exact ⟨List.mem_cons_self _ _, hq⟩
      · rw [if_neg hq] at h
        obtain ⟨h1, h2⟩ := ih h
        exact ⟨List.mem_cons_of_mem _ h1, h2⟩

/-- A non-zero best score is attained by some successful result, so
`firstWithScore` at the maximum cannot miss. -/
theorem firstWithScore_max_isSome (l : List (Option StratResult))
    (h : maxStratScore l ≠ 0) :
    ∃ r, firstWithScore (maxStratScore l) l = some r := by
  induction l with
  | nil => simp [maxStratScore] at h
  | cons o rest ih =>
    cases o with
    | none =>
      rw [maxStratScore_cons_none, firstWithScore_cons_none]
      exact ih (by rwa [maxStratScore_cons_none] at h)
    | some q =>
      rw [maxStratScore_cons_some, firstWithScore_cons_some]
      by_cases hq : scoreResult q = max (scoreResult q) (maxStratScore rest)
      · rw [if_pos hq]
        exact ⟨q, rfl⟩
      · have hM : max (scoreResult q) (maxStratScore rest) = maxStratScore rest := by
          omega
        rw [hM] at hq ⊢
        rw [if_neg hq]
        apply ih
        rw [maxStratScore_cons_some, hM] at h
        exact h

/-- Claim C4: each successful result is scored
`len(content) + 100·has(title) + 50·has(author) + 50·has(publishDate)`; the
loop keeps the maximum-scoring result with ties going to the first examined
(the selection equals the spec-side rule, the kept score is the maximum, and
a kept result is a member attaining the maximum), and extraction reports
`EXTRACTION_FAILED` exactly when no strategy succeeds or the winning score
is 0 (equivalently, the maximum score is 0). -/
theorem strategy_selection (outcomes : List (Option StratResult))
    (elapsed : Nat) :
    ((selectBest outcomes).1 = strategy_selection_spec outcomes) ∧
    ((selectBest outcomes).2 = maxStratScore outcomes) ∧
    (maxStratScore outcomes = 0 ↔
      ∀ r, some r ∈ outcomes → scoreResult r = 0) ∧
    (extract_content (Except.ok outcomes) elapsed =
        Except.error ExtractErr.extractionFailed ↔
      maxStratScore outcomes = 0) ∧
    (∀ r, (selectBest outcomes).1 = some r →
      some r ∈ outcomes ∧ scoreResult r = maxStratScore outcomes) := by
  have hsel := selectBestAux_spec outcomes none 0
  have hfst : (selectBest outcomes).1 = strategy_selection_spec outcomes := by
    rw [selectBest, hsel, strategy_selection_spec]
    by_cases h : maxStratScore outcomes = 0
    · rw [if_pos (by omega), if_pos h]
    · rw [if_neg (by omega), if_neg h]
  have hsnd : (selectBest outcomes).2 = maxStratScore outcomes := by
    rw [selectBest, hsel]
    simp
  refine ⟨hfst, hsnd, maxStratScore_eq_zero_iff outcomes, ?_, ?_⟩
  · constructor
    · intro h
      by_contra hne
      obtain ⟨r, hr⟩ := firstWithScore_max_isSome outcomes hne
      have h1 : (selectBest outcomes).1 = some r := by
        rw [hfst, strategy_selection_spec, if_neg hne, hr]
      have h2 : ¬ (selectBest outcomes).2 = 0 := by
        rw [hsnd]
        exact hne
      unfold extract_content at h
      simp only [h1, if_neg h2] at h
      simp at h
    · intro h
      have h1 : (selectBest outcomes).1 = none := by
        rw [hfst, strategy_selection_spec, if_pos h]
      unfold extract_content
      simp only [h1]
  · intro r hr
    rw [hfst, strategy_selection_spec] at hr
    split at hr
    · cases hr
    · exact firstWithScore_mem _ _ _ hr

/-! ## Claim C5 — language resolution -/

/-- Helper: `if d ≠ "unknown" then d else "unknown"` is just `d`. -/
theorem unknown_guard_id (d : String) :
    (if d ≠ "unknown" then d else "unknown") = d := by
  by_cases h : d = "unknown" <;> simp [h]

/-- Claim C5: the article language is resolved by first match among the
metadata tags and, only when the cleaned `title + " " + summary` string is at
least 20 characters, mapped statistical detection — i.e. the source function
equals the spec-side procedure; and an entry-level tag `"ar-TN"` yields
`"ar"` regardless of the detector, the feed tags and the text. -/
theorem language_resolution :
    (∀ (detect : String → Option String) (fm : FeedMeta) (e : RssEntry)
       (title summary : String),
       determine_article_language detect fm e title summary =
         language_resolution_spec detect fm e title summary) ∧
    (∀ (detect : String → Option String) (fm : FeedMeta) (e : RssEntry)
       (title summary : String), e.language = some "ar-TN" →
       determine_article_language detect fm e title summary = "ar") := by
  have harTN : normLangTag (some "ar-TN") = some "ar" := by decide
  constructor
  · intro detect fm e title summary
    unfold determine_article_language language_resolution_spec
      extract_language_from_rss_metadata
    cases normLangTag e.language with
    | some l => rfl
    | none =>
      simp only
      cases normLangTag fm.language with
      | some l => rfl
      | none =>
        simp only
        cases normLangTag fm.lang with
        | some l => rfl
        | none =>
          simp only [unknown_guard_id]
          set c := pyStrip (title ++ " " ++ summary) with hc
          have hidem : (pyStrip c).length = c.length := by
            rw [hc, pyStrip_idem]
          have hle : (clean_text c).length ≤ c.length := length_clean_text_le c
          unfold detect_language_from_content
          by_cases hclean : 20 ≤ (clean_text c).length
          · have houter : 20 ≤ c.length := le_trans hclean hle
            rw [if_pos houter, if_neg (by omega), if_neg (by omega),
              if_pos hclean]
          · rw [if_neg hclean]
            by_cases houter : 20 ≤ c.length
            · rw [if_pos houter, if_neg (by omega), if_pos (by omega)]
            · rw [if_neg houter]
  · intro detect fm e title summary h
    unfold determine_article_language extract_language_from_rss_metadata
    rw [h, harTN]

/-- Claim C4, witness: with outcomes `[failed, score 110, score 2]`, the kept
result is the score-110 one, a member attaining the maximum score. -/
theorem strategy_selection_witness :
    some sampleStrat1 ∈ [none, some sampleStrat1, some sampleStrat2] ∧
    scoreResult sampleStrat1 =
      maxStratScore [none, some sampleStrat1, some sampleStrat2] :=
  (strategy_selection [none, some sampleStrat1, some sampleStrat2] 0).2.2.2.2
    sampleStrat1 (by decide)

/-- Claim C5, witness: a concrete entry tagged `ar-TN`, a detector that
reports French, and a long French summary still resolve to `ar`. -/
theorem language_resolution_witness :
    determine_article_language (fun _ => some "fr") ⟨some "fr", none⟩
      { title := none, link := none, summary := none, author := none
        published := none, language := some "ar-TN", media_thumbnail := []
        media_content := [], enclosures := [], description_imgs := none }
      "Bonjour" "Ceci est un résumé assez long en français" = "ar" :=
  language_resolution.2 (fun _ => some "fr") ⟨some "fr", none⟩
    { title := none, link := none, summary := none, author := none
      published := none, language := some "ar-TN", media_thumbnail := []
      media_content := [], enclosures := [], description_imgs := none }
    "Bonjour" "Ceci est un résumé assez long en français" rfl

/-! ## Claim C10 — frame conditions of the on-demand extraction update -/

/-- Claim C10: on-demand extraction returns `None` and leaves the store
untouched when the article is missing or extraction errors; on success it
returns the data, rewrites exactly the matching rows through
`applyContentUpdate`, and that update changes only `content`, `word_count`,
`reading_time`, `content_extracted_at` and (conditionally) `image_url`,
leaving every other stored field unchanged; the image is replaced only when
the stored image was null/empty and a first extracted image exists. -/
theorem extraction_update_frame
    (fetched : Except ExtractErr (List (Option StratResult)))
    (elapsed : Nat) (now : Int) (s : Store) (article_id : String) :
    (findArticle s article_id = none →
      extract_article_content fetched elapsed now s article_id = (none, s)) ∧
    (∀ e, extract_content fetched elapsed = Except.error e →
      extract_article_content fetched elapsed now s article_id = (none, s)) ∧
    (∀ article data, findArticle s article_id = some article →
      extract_content fetched elapsed = Except.ok data →
      extract_article_content fetched elapsed now s article_id =
        (some data,
          ⟨s.rows.map (fun r =>
            if r.id = article_id
            then applyContentUpdate data now (chooseNewImage article data) r
            else r)⟩)) ∧
    (∀ (data : ExtractData) (t : Int) (img : Option String) (r : ArticleRow),
      (applyContentUpdate data t img r).id = r.id ∧
      (applyContentUpdate data t img r).title = r.title ∧
      (applyContentUpdate data t img r).url = r.url ∧
      (applyContentUpdate data t img r).source_name = r.source_name ∧
      (applyContentUpdate data t img r).author = r.author ∧
      (applyContentUpdate data t img r).published_at = r.published_at ∧
      (applyContentUpdate data t img r).summary = r.summary ∧
      (applyContentUpdate data t img r).source_url = r.source_url ∧
      (applyContentUpdate data t img r).collected_at = r.collected_at ∧
      (applyContentUpdate data t img r).content_hash = r.content_hash ∧
      (applyContentUpdate data t img r).language = r.language ∧
      (applyContentUpdate data t img r).analysis_status = r.analysis_status ∧
      (applyContentUpdate data t img r).analysis_id = r.analysis_id ∧
      (applyContentUpdate data t img r).created_at = r.created_at ∧
      (applyContentUpdate data t img r).content = data.content ∧
      (applyContentUpdate data t img r).word_count = some data.wordCount ∧
      (applyContentUpdate data t img r).reading_time = some data.readingTime ∧
      (applyContentUpdate data t img r).content_extracted_at = some t ∧
      (img = none →
        (applyContentUpdate data t img r).image_url = r.image_url) ∧
      (∀ u, img = some u →
        (applyContentUpdate data t img r).image_url = some u)) ∧
    (∀ (article : ArticleRow) (data : ExtractData) (u : String),
      chooseNewImage article data = some u →
      pyFalsyImage article.image_url = true ∧ data.images.head? = some u) := by
  refine ⟨?_, ?_, ?_, ?_, ?_⟩
  · intro h
    unfold extract_article_content
    rw [h]
  · intro e he
    unfold extract_article_content
    cases hfind : findArticle s article_id with
    | none => rfl
    | some article => rw [he]
  · intro article data hfind hok
    unfold extract_article_content
    rw [hfind, hok]
  · intro data t img r
    cases img with
    | none =>
      refine ⟨rfl, rfl, rfl, rfl, rfl, rfl, rfl, rfl, rfl, rfl, rfl, rfl, rfl,
        rfl, rfl, rfl, rfl, rfl, ?_, ?_⟩
      · intro _
        rfl
      · intro u h
        cases h
    | some v =>
      refine ⟨rfl, rfl, rfl, rfl, rfl, rfl, rfl, rfl, rfl, rfl, rfl, rfl, rfl,
        rfl, rfl, rfl, rfl, rfl, ?_, ?_⟩
      · intro h
        cases h
      · intro u h
        cases h
        rfl
  · intro article data u h
    unfold chooseNewImage at h
    by_cases hf : pyFalsyImage article.image_url
    · rw [if_pos hf] at h
      cases hh : data.images.head? with
      | none =>
        rw [hh] at h
        cases h
      | some v =>
        rw [hh] at h
        simp only at h
        by_cases hv : v.isEmpty
        · rw [if_pos hv] at h
          cases h
        · rw [if_neg hv] at h
          exact ⟨hf, h⟩
    · rw [if_neg hf] at h
      cases h

/-- Claim C10, witness: a missing article id leaves the (empty) store
untouched and returns `None`. -/
theorem extraction_update_frame_witness :
    extract_article_content (Except.error ExtractErr.timeout) 0 0 ⟨[]⟩
      "nope" = (none, ⟨[]⟩) :=
  (extraction_update_frame (Except.error ExtractErr.timeout) 0 0 ⟨[]⟩
    "nope").1 rfl

/-! ## Claim C1 — stored content non-empty -/

/-- Claim C1: the inserted placeholder is always non-empty, but the
on-demand extraction update does not keep content non-empty: a strategy
outcome with a title and empty body wins with score 100, extraction
succeeds with `content = ""`, and the update stores the empty content —
contradicting the invariant that `test_content_not_null.py` checks (it
counts falsy content as NULL CONTENT). -/
theorem content_nonempty_violation :
    (∀ t : String, placeholderContent t ≠ "") ∧
    (extract_content (Except.ok [some emptyContentResult]) 0 =
      Except.ok
        { title := "T", content := "", author := none, publishDate := none
          images := [], description := none, wordCount := 0
          readingTime := calculate_reading_time 0
          extractionStrategy := "readability", processingTime := 0 }) ∧
    ((extract_article_content (Except.ok [some emptyContentResult]) 0 5
        ⟨[sampleRow none]⟩ "r1").2.rows.map (fun r => r.content) = [""]) := by
  refine ⟨?_, rfl, rfl⟩
  intro t h
  have hlen := congrArg String.length h
  rw [placeholderContent, String.length_append] at hlen
  have h30 : ("\n\n(Click to read full article)" : String).length = 30 := rfl
  have h0 : ("" : String).length = 0 := rfl
  rw [h30, h0] at hlen
  omega

end CritiqueWire
